import Mathlib

/-!
Verification of the RocketryVT/Mesh telemetry protocol schema
(`src/protocol/mod.rs`): GPS fix conversions, the APRS compression-type
bitfield, the Comment record bit layout with its compressed ADS payload,
the quantization codec, and the satellite-info sub-record.

Machine integers are embedded as `Nat`/`Int` with explicit bounds;
two's-complement fields carry explicit `% 2^w` conversions.
-/

namespace Mesh

/-! ## GPS fix quality (`GpsFix`, lines 80-128 of `src/protocol/mod.rs`) -/

/-- Enumerated GPS fix quality `GpsFix`, discriminants 0..5. -/
inductive GpsFix where
  | NoFix
  | DeadReckoningOnly
  | Fix2D
  | Fix3D
  | GPSPlusDeadReckoning
  | TimeOnlyFix
  deriving DecidableEq, Repr

/-- Per `impl Default for GpsFix`, the default fix level is `NoFix`. -/
def GpsFix.default : GpsFix := GpsFix.NoFix

/-- Per `impl Into<u8> for GpsFix`: `self as u8`, the declared discriminant. -/
def GpsFix.intoU8 : GpsFix → Nat
  | .NoFix => 0
  | .DeadReckoningOnly => 1
  | .Fix2D => 2
  | .Fix3D => 3
  | .GPSPlusDeadReckoning => 4
  | .TimeOnlyFix => 5

/-- Per `impl From<u8> for GpsFix`: codes 0..5 map to the six levels, every
other byte value falls to `NoFix`. The `u8` domain is embedded as `Nat`. -/
def GpsFix.fromU8 (value : Nat) : GpsFix :=
  match value with
  | 0 => .NoFix
  | 1 => .DeadReckoningOnly
  | 2 => .Fix2D
  | 3 => .Fix3D
  | 4 => .GPSPlusDeadReckoning
  | 5 => .TimeOnlyFix
  | _ => .NoFix

/-- The fix type of the external `ublox` receiver crate. Its six known
variants are matched by name in `From<UbloxGPSFix> for GpsFix`; the
`Unknown` arm stands for any further value of the external type, which
the source handles with a catch-all `_` arm. -/
inductive UbloxGPSFix where
  | NoFix
  | DeadReckoningOnly
  | Fix2D
  | Fix3D
  | GPSPlusDeadReckoning
  | TimeOnlyFix
  | Unknown (raw : Nat)
  deriving DecidableEq, Repr

/-- Per `impl From<UbloxGPSFix> for GpsFix`: the six named variants map to
their counterparts, all other possible values fall to `NoFix`. -/
def GpsFix.fromUblox : UbloxGPSFix → GpsFix
  | .NoFix => .NoFix
  | .DeadReckoningOnly => .DeadReckoningOnly
  | .Fix2D => .Fix2D
  | .Fix3D => .Fix3D
  | .GPSPlusDeadReckoning => .GPSPlusDeadReckoning
  | .TimeOnlyFix => .TimeOnlyFix
  | .Unknown _ => .NoFix

/-! ## Compression-metadata byte (`CompressionType`, lines 299-339)

`modular_bitfield` packs the fields of an 8-bit bitfield starting at the
least significant bit, in declaration order: 2 skipped bits, then
`gps_fix` (1 bit), `nmea_source` (2 bits), `compression_origin` (3 bits). -/

/-- Recency flag `APRSGPSFix`, 1 bit. -/
inductive APRSGPSFix where
  | LastKnown
  | Current
  deriving DecidableEq, Repr

def APRSGPSFix.toBits : APRSGPSFix → Nat
  | .LastKnown => 0
  | .Current => 1

/-- Sentence source `NMEASource`, 2 bits. -/
inductive NMEASource where
  | Other
  | GLL
  | GGA
  | RMC
  deriving DecidableEq, Repr

def NMEASource.toBits : NMEASource → Nat
  | .Other => 0
  | .GLL => 1
  | .GGA => 2
  | .RMC => 3

def NMEASource.ofBits (n : Nat) : NMEASource :=
  match n % 4 with
  | 0 => .Other
  | 1 => .GLL
  | 2 => .GGA
  | _ => .RMC

/-- Compression origin `CompressionOrigin`, 3 bits. -/
inductive CompressionOrigin where
  | Compressed
  | TNCBText
  | Software
  | TBD
  | KPC3
  | Pico
  | OtherTracker
  | Digipeater
  deriving DecidableEq, Repr

def CompressionOrigin.toBits : CompressionOrigin → Nat
  | .Compressed => 0
  | .TNCBText => 1
  | .Software => 2
  | .TBD => 3
  | .KPC3 => 4
  | .Pico => 5
  | .OtherTracker => 6
  | .Digipeater => 7

def CompressionOrigin.ofBits (n : Nat) : CompressionOrigin :=
  match n % 8 with
  | 0 => .Compressed
  | 1 => .TNCBText
  | 2 => .Software
  | 3 => .TBD
  | 4 => .KPC3
  | 5 => .Pico
  | 6 => .OtherTracker
  | _ => .Digipeater

def APRSGPSFix.ofBits (n : Nat) : APRSGPSFix :=
  match n % 2 with
  | 0 => .LastKnown
  | _ => .Current

/-- The declared widths of the `CompressionType` bitfield: 2 reserved
bits, 1 bit of GPS-fix recency, 2 bits of NMEA source, 3 bits of
compression origin. -/
def compressionTypeWidths : List Nat := [2, 1, 2, 3]

/-- Pack a `CompressionType` byte: skipped bits 0-1 are zero, `gps_fix`
sits at bit 2, `nmea_source` at bits 3-4, `compression_origin` at
bits 5-7. -/
def packCompressionType (gf : APRSGPSFix) (ns : NMEASource)
    (co : CompressionOrigin) : Nat :=
  gf.toBits * 2 ^ 2 + ns.toBits * 2 ^ 3 + co.toBits * 2 ^ 5

/-- Unpack the three live fields of a `CompressionType` byte. -/
def unpackCompressionType (n : Nat) :
    APRSGPSFix × NMEASource × CompressionOrigin :=
  (APRSGPSFix.ofBits (n / 2 ^ 2), NMEASource.ofBits (n / 2 ^ 3),
    CompressionOrigin.ofBits (n / 2 ^ 5))

/-! ## Two's-complement field helpers

`i16`/`i32` struct fields go onto the wire as two's-complement bit
patterns; `toTwos` and `ofTwos` are the conversions between the signed
value and the width-`w` unsigned bit pattern. -/

/-- The two's-complement bit pattern (as `Nat`) of a signed value in a
`w`-bit field. -/
def toTwos (w : Nat) (x : Int) : Nat := (x % (2 ^ w : Int)).toNat

/-- The signed value of a `w`-bit two's-complement bit pattern. -/
def ofTwos (w : Nat) (n : Nat) : Int :=
  if n < 2 ^ (w - 1) then (n : Int) else (n : Int) - 2 ^ w

theorem toTwos_lt (w : Nat) (x : Int) : toTwos w x < 2 ^ w := by
  have hp : (0 : Int) < 2 ^ w := by positivity
  have h1 : 0 ≤ x % (2 ^ w : Int) := Int.emod_nonneg x hp.ne'
  have h2 : x % (2 ^ w : Int) < 2 ^ w := Int.emod_lt_of_pos x hp
  have h3 : ((2 ^ w : Nat) : Int) = (2 ^ w : Int) := by push_cast; ring
  unfold toTwos
  omega

theorem toTwos_mod (w : Nat) (x : Int) : toTwos w x % 2 ^ w = toTwos w x :=
  Nat.mod_eq_of_lt (toTwos_lt w x)

theorem ofTwos_toTwos16 (x : Int) (h1 : -32768 ≤ x) (h2 : x < 32768) :
    ofTwos 16 (toTwos 16 x) = x := by
  simp only [ofTwos, toTwos]
  split <;> omega

theorem ofTwos_toTwos32 (x : Int) (h1 : -2147483648 ≤ x)
    (h2 : x < 2147483648) : ofTwos 32 (toTwos 32 x) = x := by
  simp only [ofTwos, toTwos]
  split <;> omega

/-- A value in the range of an `i16` field. -/
abbrev i16range (x : Int) : Prop := -32768 ≤ x ∧ x < 32768

/-- A value in the range of an `i32` field. -/
abbrev i32range (x : Int) : Prop := -2147483648 ≤ x ∧ x < 2147483648

theorem ofTwos16_mem (n : Nat) (h : n < 2 ^ 16) : i16range (ofTwos 16 n) := by
  simp only [ofTwos]
  split <;> constructor <;> omega

theorem ofTwos32_mem (n : Nat) (h : n < 2 ^ 32) : i32range (ofTwos 32 n) := by
  simp only [ofTwos]
  split <;> constructor <;> omega

/-! ## Bit-packing helpers -/

theorem pack_mod (a b k : Nat) (h : b < 2 ^ k) :
    (a * 2 ^ k + b) % 2 ^ k = b := by
  rw [Nat.add_comm, Nat.add_mul_mod_self_right, Nat.mod_eq_of_lt h]

theorem pack_div (a b k : Nat) (h : b < 2 ^ k) :
    (a * 2 ^ k + b) / 2 ^ k = a := by
  rw [Nat.mul_comm, Nat.mul_add_div (by positivity), Nat.div_eq_of_lt h,
    Nat.add_zero]

/-! ## Comment record enumerants (`DeviceType`, `MessageType`,
lines 358-376 of `src/protocol/mod.rs`)

Both are 2-bit `BitfieldSpecifier` enums whose four variants cover all
four 2-bit patterns; `#[default]` marks `Ground` resp. `Data`. -/

/-- Originating device role `DeviceType`, 2 bits. -/
inductive DeviceType where
  | Ground
  | Top
  | Bottom
  | Mobile
  deriving DecidableEq, Repr

/-- The `#[default]` attribute sits on `Ground`. -/
def DeviceType.default : DeviceType := .Ground

def DeviceType.toBits : DeviceType → Nat
  | .Ground => 0
  | .Top => 1
  | .Bottom => 2
  | .Mobile => 3

/-- Total decode of a 2-bit device-type pattern. -/
def DeviceType.ofBits (n : Nat) : DeviceType :=
  match n % 4 with
  | 0 => .Ground
  | 1 => .Top
  | 2 => .Bottom
  | _ => .Mobile

/-- Payload classification `MessageType`, 2 bits. -/
inductive MessageType where
  | Ack
  | Data
  | Placeholder
  | Custom
  deriving DecidableEq, Repr

/-- The `#[default]` attribute sits on `Data`. -/
def MessageType.default : MessageType := .Data

def MessageType.toBits : MessageType → Nat
  | .Ack => 0
  | .Data => 1
  | .Placeholder => 2
  | .Custom => 3

/-- Total decode of a 2-bit message-type pattern. -/
def MessageType.ofBits (n : Nat) : MessageType :=
  match n % 4 with
  | 0 => .Ack
  | 1 => .Data
  | 2 => .Placeholder
  | _ => .Custom

theorem deviceType_toBits_lt (d : DeviceType) : d.toBits < 2 ^ 2 := by
  cases d <;> decide

theorem messageType_toBits_lt (m : MessageType) : m.toBits < 2 ^ 2 := by
  cases m <;> decide

theorem deviceType_ofBits_toBits (d : DeviceType) :
    DeviceType.ofBits d.toBits = d := by cases d <;> rfl

theorem messageType_ofBits_toBits (m : MessageType) :
    MessageType.ofBits m.toBits = m := by cases m <;> rfl

/-! ## Compressed ADS telemetry record (`AdsCompressed`, lines 394-408) -/

/-- Compressed ADS record `AdsCompressed`: eleven `i16` scalar channels plus an `i32`
timestamp, in declaration order. -/
structure AdsCompressed where
  lat : Int
  lon : Int
  vel_x : Int
  vel_y : Int
  vel_z : Int
  acc_x : Int
  acc_y : Int
  acc_z : Int
  alt : Int
  predicted_apogee : Int
  flap_deploy_angle : Int
  timestamp : Int
  deriving DecidableEq, Repr

/-- Every field fits its declared machine-integer type. -/
abbrev validAds (a : AdsCompressed) : Prop :=
  i16range a.lat ∧ i16range a.lon ∧ i16range a.vel_x ∧ i16range a.vel_y ∧
    i16range a.vel_z ∧ i16range a.acc_x ∧ i16range a.acc_y ∧
    i16range a.acc_z ∧ i16range a.alt ∧ i16range a.predicted_apogee ∧
    i16range a.flap_deploy_angle ∧ i32range a.timestamp

/-- The declared field widths of `AdsCompressed`: eleven 16-bit channels
and a 32-bit timestamp. -/
def adsFieldWidths : List Nat :=
  [16, 16, 16, 16, 16, 16, 16, 16, 16, 16, 16, 32]

/-- Modelled from the spec: the serializer of the compressed ADS record
is not in `src` (only the struct declaration is); fields are packed
most-significant-field-first into a 208-bit word, each as its
two's-complement bit pattern. -/
def AdsCompressed.encode (a : AdsCompressed) : Nat :=
  ((((((((((toTwos 16 a.lat * 2 ^ 16 + toTwos 16 a.lon) * 2 ^ 16 +
    toTwos 16 a.vel_x) * 2 ^ 16 + toTwos 16 a.vel_y) * 2 ^ 16 +
    toTwos 16 a.vel_z) * 2 ^ 16 + toTwos 16 a.acc_x) * 2 ^ 16 +
    toTwos 16 a.acc_y) * 2 ^ 16 + toTwos 16 a.acc_z) * 2 ^ 16 +
    toTwos 16 a.alt) * 2 ^ 16 + toTwos 16 a.predicted_apogee) * 2 ^ 16 +
    toTwos 16 a.flap_deploy_angle) * 2 ^ 32 + toTwos 32 a.timestamp

/-- Modelled from the spec: the deserializer of the compressed ADS
record, peeling the 208-bit word least-significant-field-last. -/
def AdsCompressed.decode (n : Nat) : AdsCompressed :=
  let timestamp := ofTwos 32 (n % 2 ^ 32)
  let n1 := n / 2 ^ 32
  let flap_deploy_angle := ofTwos 16 (n1 % 2 ^ 16)
  let n2 := n1 / 2 ^ 16
  let predicted_apogee := ofTwos 16 (n2 % 2 ^ 16)
  let n3 := n2 / 2 ^ 16
  let alt := ofTwos 16 (n3 % 2 ^ 16)
  let n4 := n3 / 2 ^ 16
  let acc_z := ofTwos 16 (n4 % 2 ^ 16)
  let n5 := n4 / 2 ^ 16
  let acc_y := ofTwos 16 (n5 % 2 ^ 16)
  let n6 := n5 / 2 ^ 16
  let acc_x := ofTwos 16 (n6 % 2 ^ 16)
  let n7 := n6 / 2 ^ 16
  let vel_z := ofTwos 16 (n7 % 2 ^ 16)
  let n8 := n7 / 2 ^ 16
  let vel_y := ofTwos 16 (n8 % 2 ^ 16)
  let n9 := n8 / 2 ^ 16
  let vel_x := ofTwos 16 (n9 % 2 ^ 16)
  let n10 := n9 / 2 ^ 16
  let lon := ofTwos 16 (n10 % 2 ^ 16)
  let lat := ofTwos 16 (n10 / 2 ^ 16 % 2 ^ 16)
  { lat := lat, lon := lon, vel_x := vel_x, vel_y := vel_y, vel_z := vel_z,
    acc_x := acc_x, acc_y := acc_y, acc_z := acc_z, alt := alt,
    predicted_apogee := predicted_apogee,
    flap_deploy_angle := flap_deploy_angle, timestamp := timestamp }

/-! ## Comment record (`Comment`, lines 344-356) -/

/-- Comment record: the mesh-routing header followed by the compressed ADS
payload. Sub-byte header fields (`hops_left` 3 bits, `comment_type` and
`msg_type` 2 bits each) keep their declared widths. -/
structure Comment where
  uid : Nat
  destination_uid : Nat
  msg_id : Nat
  hops_left : Nat
  comment_type : DeviceType
  msg_type : MessageType
  team_number : Nat
  ads : AdsCompressed
  deriving DecidableEq, Repr

/-- Every field fits its declared bit width. -/
abbrev validComment (c : Comment) : Prop :=
  c.uid < 2 ^ 8 ∧ c.destination_uid < 2 ^ 8 ∧ c.msg_id < 2 ^ 8 ∧
    c.hops_left < 2 ^ 3 ∧ c.team_number < 2 ^ 8 ∧ validAds c.ads

/-- The declared field widths of the Comment record: uid 8,
destination_uid 8, msg_id 8, hops_left 3, comment_type 2, msg_type 2,
team_number 8, compressed ADS payload 208, reserved 9. -/
def commentFieldWidths : List Nat := [8, 8, 8, 3, 2, 2, 8, 208, 9]

/-- Modelled from the spec: the 39-bit routing-header packer is not in
`src` (only the struct declaration with per-field width comments is);
fields are packed most-significant-field-first. -/
def Comment.encodeHeader (c : Comment) : Nat :=
  (((((c.uid * 2 ^ 8 + c.destination_uid) * 2 ^ 8 + c.msg_id) * 2 ^ 3 +
    c.hops_left) * 2 ^ 2 + c.comment_type.toBits) * 2 ^ 2 +
    c.msg_type.toBits) * 2 ^ 8 + c.team_number

/-- Modelled from the spec: the Comment record serializer packs the
39-bit header, the 208-bit compressed ADS payload and 9 reserved zero
bits into a 256-bit (32-byte) word, most-significant-field-first. -/
def Comment.encode (c : Comment) : Nat :=
  (c.encodeHeader * 2 ^ 208 + c.ads.encode) * 2 ^ 9

/-- Modelled from the spec: the Comment record deserializer; the 9
reserved bits are read but discarded, and each field is masked to its
declared width. -/
def Comment.decode (n : Nat) : Comment :=
  let n0 := n / 2 ^ 9
  let ads := AdsCompressed.decode (n0 % 2 ^ 208)
  let h0 := n0 / 2 ^ 208
  let team_number := h0 % 2 ^ 8
  let h1 := h0 / 2 ^ 8
  let msg_type := MessageType.ofBits (h1 % 2 ^ 2)
  let h2 := h1 / 2 ^ 2
  let comment_type := DeviceType.ofBits (h2 % 2 ^ 2)
  let h3 := h2 / 2 ^ 2
  let hops_left := h3 % 2 ^ 3
  let h4 := h3 / 2 ^ 3
  let msg_id := h4 % 2 ^ 8
  let h5 := h4 / 2 ^ 8
  let destination_uid := h5 % 2 ^ 8
  let uid := h5 / 2 ^ 8 % 2 ^ 8
  { uid := uid, destination_uid := destination_uid, msg_id := msg_id,
    hops_left := hops_left, comment_type := comment_type,
    msg_type := msg_type, team_number := team_number, ads := ads }

/-! ## Theorems for the GPS fix and compression-type claims -/

/-- C10: Converting any `GpsFix` variant to its `u8` code and back
through `From<u8>` is the identity on all six defined fix levels. -/
theorem gpsFix_u8_roundtrip (g : GpsFix) :
    GpsFix.fromU8 (GpsFix.intoU8 g) = g := by
  cases g <;> rfl

/-- C6: the conversion `From<u8> for GpsFix` is total: codes 0..5 map to the six
levels in order, every other byte maps to `NoFix`, and every unmapped
external receiver fix value maps to `NoFix`. -/
theorem gpsFix_fromU8_total :
    (GpsFix.fromU8 0 = .NoFix ∧ GpsFix.fromU8 1 = .DeadReckoningOnly ∧
      GpsFix.fromU8 2 = .Fix2D ∧ GpsFix.fromU8 3 = .Fix3D ∧
      GpsFix.fromU8 4 = .GPSPlusDeadReckoning ∧
      GpsFix.fromU8 5 = .TimeOnlyFix) ∧
    (∀ value : Nat, 6 ≤ value → GpsFix.fromU8 value = .NoFix) ∧
    (∀ raw : Nat, GpsFix.fromUblox (.Unknown raw) = .NoFix) := by
  refine ⟨⟨rfl, rfl, rfl, rfl, rfl, rfl⟩, ?_, fun _ => rfl⟩
  intro value h
  match value, h with
  | n + 6, _ => rfl

/-- Witness for C6 at the concrete out-of-range codes 6 and 255. -/
theorem gpsFix_fromU8_total_witness :
    GpsFix.fromU8 6 = .NoFix ∧ GpsFix.fromU8 255 = .NoFix :=
  ⟨gpsFix_fromU8_total.2.1 6 (by decide),
    gpsFix_fromU8_total.2.1 255 (by decide)⟩

/-- C8: the compression-metadata byte is exactly 8 bits: its declared
widths are 2 (reserved) + 1 (GPS fix) + 2 (NMEA source) + 3 (compression
origin) = 8, every packed byte is below `2^8`, and unpacking recovers
each of the three live fields. -/
theorem compressionType_byte_layout :
    compressionTypeWidths = [2, 1, 2, 3] ∧
    compressionTypeWidths.sum = 8 ∧
    (∀ (gf : APRSGPSFix) (ns : NMEASource) (co : CompressionOrigin),
      packCompressionType gf ns co < 2 ^ 8 ∧
      unpackCompressionType (packCompressionType gf ns co) = (gf, ns, co)) := by
  refine ⟨rfl, rfl, ?_⟩
  intro gf ns co
  cases gf <;> cases ns <;> cases co <;> exact ⟨by decide, by decide⟩

/-! ## Bounds and round-trips for the Comment record -/

theorem ads_encode_lt (a : AdsCompressed) : AdsCompressed.encode a < 2 ^ 208 := by
  have h1 := toTwos_lt 16 a.lat
  have h2 := toTwos_lt 16 a.lon
  have h3 := toTwos_lt 16 a.vel_x
  have h4 := toTwos_lt 16 a.vel_y
  have h5 := toTwos_lt 16 a.vel_z
  have h6 := toTwos_lt 16 a.acc_x
  have h7 := toTwos_lt 16 a.acc_y
  have h8 := toTwos_lt 16 a.acc_z
  have h9 := toTwos_lt 16 a.alt
  have h10 := toTwos_lt 16 a.predicted_apogee
  have h11 := toTwos_lt 16 a.flap_deploy_angle
  have h12 := toTwos_lt 32 a.timestamp
  simp only [AdsCompressed.encode]
  omega

theorem comment_encodeHeader_lt (c : Comment) (h : validComment c) :
    Comment.encodeHeader c < 2 ^ 39 := by
  obtain ⟨h1, h2, h3, h4, h5, -⟩ := h
  have hct := deviceType_toBits_lt c.comment_type
  have hmt := messageType_toBits_lt c.msg_type
  simp only [Comment.encodeHeader]
  omega

theorem comment_encode_lt (c : Comment) (h : validComment c) :
    Comment.encode c < 2 ^ 256 := by
  have hH := comment_encodeHeader_lt c h
  have hA := ads_encode_lt c.ads
  simp only [Comment.encode]
  omega

attribute [ext] AdsCompressed Comment

theorem ads_decode_encode (a : AdsCompressed) (h : validAds a) :
    AdsCompressed.decode (AdsCompressed.encode a) = a := by
  obtain ⟨h1, h2, h3, h4, h5, h6, h7, h8, h9, h10, h11, h12⟩ := h
  simp only [AdsCompressed.decode, AdsCompressed.encode]
  simp only [pack_div, pack_mod, toTwos_lt, toTwos_mod]
  ext <;> dsimp only <;>
    first
      | exact ofTwos_toTwos16 _ (by omega) (by omega)
      | exact ofTwos_toTwos32 _ (by omega) (by omega)

/-- The concrete scenario of the spec: routing header
`uid=1, destination_uid=2, msg_id=3, hops_left=4, comment_type=Ground,
msg_type=Data, team_number=5` with ADS payload `100..1100, 1200`. -/
def exampleAds : AdsCompressed :=
  { lat := 100, lon := 200, vel_x := 300, vel_y := 400, vel_z := 500,
    acc_x := 600, acc_y := 700, acc_z := 800, alt := 900,
    predicted_apogee := 1000, flap_deploy_angle := 1100, timestamp := 1200 }

/-- The Comment record of the spec's concrete scenario. -/
def exampleComment : Comment :=
  { uid := 1, destination_uid := 2, msg_id := 3, hops_left := 4,
    comment_type := .Ground, msg_type := .Data, team_number := 5,
    ads := exampleAds }

/-! ## Theorems for the Comment record claims -/

/-- C1: decoding the 32-byte encoding of any Comment record whose fields
fit their declared widths yields a record equal to the original in every
field, whatever the contents `r` of the 9 reserved bits. -/
theorem comment_roundtrip (c : Comment) (h : validComment c) (r : Nat)
    (hr : r < 2 ^ 9) : Comment.decode (Comment.encode c + r) = c := by
  obtain ⟨h1, h2, h3, h4, h5, h6⟩ := h
  have hA : AdsCompressed.decode (AdsCompressed.encode c.ads) = c.ads :=
    ads_decode_encode c.ads h6
  have hAL : AdsCompressed.encode c.ads < 2 ^ 208 := ads_encode_lt c.ads
  simp only [Comment.encode, Comment.encodeHeader, Comment.decode]
  simp only [pack_div, pack_mod, hr, h1, h2, h3, h4, h5, hAL, hA,
    deviceType_toBits_lt, messageType_toBits_lt, deviceType_ofBits_toBits,
    messageType_ofBits_toBits, Nat.mod_eq_of_lt]

/-- Witness for C1 on the spec's concrete scenario, with all-ones noise
in the 9 reserved bits. -/
theorem comment_roundtrip_witness :
    validComment exampleComment ∧ (511 : Nat) < 2 ^ 9 ∧
    Comment.decode (Comment.encode exampleComment + 511) = exampleComment :=
  ⟨by decide, by decide,
    comment_roundtrip exampleComment (by decide) 511 (by decide)⟩

/-- C2: the Comment record occupies 39 + 208 + 9 = 256 bits (32 bytes);
the header fields (uid 8, destination_uid 8, msg_id 8, hops_left 3,
comment_type 2, msg_type 2, team_number 8) total 39 bits, the
team_number field is 8 bits wide, every valid encoding fits in 256 bits
with the header in 39 bits, and decoding masks team_number to 8 bits. -/
theorem comment_record_layout :
    commentFieldWidths = [8, 8, 8, 3, 2, 2, 8, 208, 9] ∧
    commentFieldWidths.sum = 256 ∧
    (commentFieldWidths.take 7).sum = 39 ∧
    (∀ c : Comment, validComment c →
      Comment.encode c < 2 ^ 256 ∧ Comment.encodeHeader c < 2 ^ 39) ∧
    (∀ n : Nat, (Comment.decode n).team_number < 2 ^ 8) := by
  refine ⟨rfl, by decide, by decide, ?_, ?_⟩
  · exact fun c h => ⟨comment_encode_lt c h, comment_encodeHeader_lt c h⟩
  · intro n
    simp only [Comment.decode]
    omega

/-- Witness for C2 on the spec's concrete scenario. -/
theorem comment_record_layout_witness :
    validComment exampleComment ∧
    Comment.encode exampleComment < 2 ^ 256 :=
  ⟨by decide,
    (comment_record_layout.2.2.2.1 exampleComment (by decide)).1⟩

/-- C5: the compressed ADS record has exactly eleven 16-bit scalar
channels plus one 32-bit timestamp, 208 bits in all: its width list has
twelve entries summing to 208, every valid record encodes below
`2 ^ 208`, and decoding the encoding recovers all twelve fields. -/
theorem ads_compressed_format :
    adsFieldWidths = [16, 16, 16, 16, 16, 16, 16, 16, 16, 16, 16, 32] ∧
    adsFieldWidths.length = 12 ∧
    adsFieldWidths.sum = 208 ∧
    (∀ a : AdsCompressed, validAds a →
      AdsCompressed.encode a < 2 ^ 208 ∧
      AdsCompressed.decode (AdsCompressed.encode a) = a) :=
  ⟨rfl, rfl, by decide,
    fun a h => ⟨ads_encode_lt a, ads_decode_encode a h⟩⟩

/-- Witness for C5 on the spec's concrete ADS payload. -/
theorem ads_compressed_format_witness :
    validAds exampleAds ∧
    AdsCompressed.decode (AdsCompressed.encode exampleAds) = exampleAds :=
  ⟨by decide, (ads_compressed_format.2.2.2 exampleAds (by decide)).2⟩

/-- C9: decoding a Comment record never fails on any bit pattern — every
decoded record satisfies all declared field bounds — and every 2-bit
pattern of `msg_type` and `comment_type` maps to a defined enumerant
(so no unrecognized pattern exists to begin with), while the types'
`#[default]` fallbacks are `Data` and `Ground` as documented. -/
theorem comment_decode_total_defaults :
    (∀ n : Nat, validComment (Comment.decode n)) ∧
    (MessageType.ofBits 0 = .Ack ∧ MessageType.ofBits 1 = .Data ∧
      MessageType.ofBits 2 = .Placeholder ∧ MessageType.ofBits 3 = .Custom) ∧
    (DeviceType.ofBits 0 = .Ground ∧ DeviceType.ofBits 1 = .Top ∧
      DeviceType.ofBits 2 = .Bottom ∧ DeviceType.ofBits 3 = .Mobile) ∧
    MessageType.default = .Data ∧ DeviceType.default = .Ground := by
  refine ⟨?_, ⟨rfl, rfl, rfl, rfl⟩, ⟨rfl, rfl, rfl, rfl⟩, rfl, rfl⟩
  intro n
  simp only [Comment.decode, AdsCompressed.decode, validComment, validAds]
  refine ⟨by omega, by omega, by omega, by omega, by omega,
    ?_, ?_, ?_, ?_, ?_, ?_, ?_, ?_, ?_, ?_, ?_, ?_⟩ <;>
    first
      | exact ofTwos16_mem _ (by omega)
      | exact ofTwos32_mem _ (by omega)

/-! ## Satellite info sub-record (`NavSat`, lines 131-228) -/

/-- Quality indicator `NavSatQualityIndicator`, per-signal tracking
state. -/
inductive NavSatQualityIndicator where
  | NoSignal
  | Searching
  | SignalAcquired
  | SignalDetected
  | CodeLock
  | CarrierLock
  deriving DecidableEq, Repr

/-- Orbit source `NavSatOrbitSource`; `Other` carries the raw fallback
code. -/
inductive NavSatOrbitSource where
  | NoInfoAvailable
  | Ephemeris
  | Almanac
  | AssistNowOffline
  | AssistNowAutonomous
  | Other (code : Nat)
  deriving DecidableEq, Repr

/-- Health tier `NavSatSvHealth`. -/
inductive NavSatSvHealth where
  | Healthy
  | Unhealthy
  | Unknown
  deriving DecidableEq, Repr

/-- Flags structure `NavSatSvFlags` of a per-satellite entry. -/
structure NavSatSvFlags where
  quality_ind : NavSatQualityIndicator
  sv_used : Bool
  health : NavSatSvHealth
  differential_correction_available : Bool
  smoothed : Bool
  orbit_sources : NavSatOrbitSource
  ephemeris_available : Bool
  almanac_available : Bool
  an_offline_available : Bool
  an_auto_available : Bool
  sbas_corr : Bool
  rtcm_corr : Bool
  slas_corr : Bool
  spartn_corr : Bool
  pr_corr : Bool
  cr_corr : Bool
  do_corr : Bool
  deriving DecidableEq, Repr

/-- Per-satellite entry `NavSatSvInfo` (`gnss_id`/`sv_id`/`cno` are
`u8`, `elev` is `i8`, `azim` and `pr_res` are `i16`). -/
structure NavSatSvInfo where
  gnss_id : Nat
  sv_id : Nat
  cno : Nat
  elev : Int
  azim : Int
  pr_res : Int
  flags : NavSatSvFlags
  deriving DecidableEq, Repr

/-- The fixed capacity of the `svs: [Option<NavSatSvInfo>; 32]` array. -/
def navSatMaxSvs : Nat := 32

/-- Modelled from the spec: the operation filling the 32-slot
`NavSat.svs` array from an externally supplied satellite list is not in
`src` (only the array declaration is); entries are written in input
order into the fixed slots, satellites beyond the bound are dropped
without error, and remaining slots stay `none`. -/
def fillSvs (l : List NavSatSvInfo) : List (Option NavSatSvInfo) :=
  List.ofFn fun i : Fin navSatMaxSvs =>
    if h : (i : Nat) < l.length then some (l.get ⟨i, h⟩) else none

/-- C7: the satellite sub-record holds at most 32 entries: filling it is
total with exactly 32 slots for every input list, and any input of at
least 32 entries (such as one of 40) leaves exactly its first 32 in
input order. -/
theorem navSat_truncates_to_32 :
    (∀ l : List NavSatSvInfo, (fillSvs l).length = 32) ∧
    (∀ l : List NavSatSvInfo, 32 ≤ l.length →
      fillSvs l = (l.take 32).map some) := by
  constructor
  · intro l
    simp [fillSvs, navSatMaxSvs]
  · intro l hl
    apply List.ext_getElem
    · simp [fillSvs, navSatMaxSvs]
      omega
    · intro i hi1 hi2
      simp only [fillSvs, navSatMaxSvs, List.length_ofFn] at hi1
      simp only [fillSvs, navSatMaxSvs]
      rw [List.getElem_ofFn, List.getElem_map, List.getElem_take]
      rw [dif_pos (by omega)]
      simp

/-- A default flags value for concrete satellite entries. -/
def exampleFlags : NavSatSvFlags :=
  { quality_ind := .NoSignal, sv_used := false, health := .Unknown,
    differential_correction_available := false, smoothed := false,
    orbit_sources := .NoInfoAvailable, ephemeris_available := false,
    almanac_available := false, an_offline_available := false,
    an_auto_available := false, sbas_corr := false, rtcm_corr := false,
    slas_corr := false, spartn_corr := false, pr_corr := false,
    cr_corr := false, do_corr := false }

/-- A concrete satellite entry with the given satellite id. -/
def exampleSv (k : Nat) : NavSatSvInfo :=
  { gnss_id := 0, sv_id := k, cno := 40, elev := 10, azim := 0,
    pr_res := 0, flags := exampleFlags }

/-- A concrete input list of 40 satellite entries. -/
def exampleSvList : List NavSatSvInfo := (List.range 40).map exampleSv

/-- Witness for C7: the 40-entry list is truncated to its first 32
entries in order. -/
theorem navSat_truncates_to_32_witness :
    32 ≤ exampleSvList.length ∧
    fillSvs exampleSvList = (exampleSvList.take 32).map some :=
  ⟨by decide, navSat_truncates_to_32.2 exampleSvList (by decide)⟩

/-! ## Quantization codec

Modelled from the spec: the channel-wise quantization codec backing the
compressed ADS fields is not in `src` (only the quantized
`AdsUncompressed`/`AdsCompressed` field declarations are). Per the
spec, a channel declares a closed interval and a bit width; encoding
computes `round((value - min) / (max - min) * (2^w - 1))` clamped into
`[0, 2^w - 1]`, and decoding is the inverse affine map. Values are
embedded as exact rationals. -/

/-- Modelled from the spec: a quantization channel with closed interval
`[min, max]` and target bit width `width`. -/
structure QuantChannel where
  min : ℚ
  max : ℚ
  width : Nat

/-- Modelled from the spec: the declared resolution
`(max - min) / (2^w - 1)` of a channel. -/
def QuantChannel.res (ch : QuantChannel) : ℚ :=
  (ch.max - ch.min) / (2 ^ ch.width - 1)

/-- Modelled from the spec: encoding computes
`round((value - min) / (max - min) * (2^w - 1))`, clamped into
`[0, 2^w - 1]` before the cast. -/
def quantEncode (ch : QuantChannel) (v : ℚ) : ℤ :=
  max 0 (min (2 ^ ch.width - 1)
    (round ((v - ch.min) / (ch.max - ch.min) * (2 ^ ch.width - 1))))

/-- Modelled from the spec: decoding is the exact inverse affine map. -/
def quantDecode (ch : QuantChannel) (code : ℤ) : ℚ :=
  ch.min + (code : ℚ) * ch.res

theorem twoPowSub1_pos (w : Nat) (hw : 1 ≤ w) : (0 : ℚ) < 2 ^ w - 1 := by
  have h : (1 : ℚ) < 2 ^ w := one_lt_pow₀ (by norm_num) (by omega)
  linarith

theorem round_mono_rat {x y : ℚ} (h : x ≤ y) : round x ≤ round y := by
  rw [round_eq, round_eq]
  exact Int.floor_le_floor (by linarith)

theorem round_two_pow_sub_one (w : Nat) :
    round ((2 : ℚ) ^ w - 1) = 2 ^ w - 1 := by
  have hcast : ((2 ^ w - 1 : ℤ) : ℚ) = 2 ^ w - 1 := by push_cast; ring
  rw [← hcast, round_intCast]

/-- C3: for every channel and every value inside the declared closed
interval, decoding the encoding differs from the value by at most one
resolution unit `(max - min) / (2^w - 1)`. -/
theorem quant_roundtrip (ch : QuantChannel) (v : ℚ) (hw : 1 ≤ ch.width)
    (hlt : ch.min < ch.max) (h1 : ch.min ≤ v) (h2 : v ≤ ch.max) :
    |quantDecode ch (quantEncode ch v) - v| ≤ ch.res := by
  have hWpos : (0 : ℚ) < 2 ^ ch.width - 1 := twoPowSub1_pos ch.width hw
  have hMM : (0 : ℚ) < ch.max - ch.min := by linarith
  unfold quantDecode quantEncode QuantChannel.res
  set t : ℚ := (v - ch.min) / (ch.max - ch.min) * (2 ^ ch.width - 1)
    with htdef
  have ht0 : 0 ≤ t := by
    rw [htdef]
    exact mul_nonneg (div_nonneg (by linarith) hMM.le) hWpos.le
  have ht1 : t ≤ 2 ^ ch.width - 1 := by
    have hr : (v - ch.min) / (ch.max - ch.min) ≤ 1 :=
      (div_le_one hMM).mpr (by linarith)
    calc t = (v - ch.min) / (ch.max - ch.min) * (2 ^ ch.width - 1) := htdef
      _ ≤ 1 * (2 ^ ch.width - 1) :=
        mul_le_mul_of_nonneg_right hr hWpos.le
      _ = 2 ^ ch.width - 1 := one_mul _
  have hr0 : (0 : ℤ) ≤ round t := by
    have h := round_mono_rat ht0
    rwa [round_zero] at h
  have hr1 : round t ≤ 2 ^ ch.width - 1 := by
    have h := round_mono_rat ht1
    rwa [round_two_pow_sub_one] at h
  rw [min_eq_right hr1, max_eq_right hr0]
  have htv : t * ((ch.max - ch.min) / (2 ^ ch.width - 1)) = v - ch.min := by
    rw [htdef]
    field_simp
  have key : ch.min + (round t : ℚ) * ((ch.max - ch.min) / (2 ^ ch.width - 1)) - v
      = ((round t : ℚ) - t) * ((ch.max - ch.min) / (2 ^ ch.width - 1)) := by
    linear_combination htv
  rw [key, abs_mul]
  have hXpos : 0 < (ch.max - ch.min) / (2 ^ ch.width - 1) := div_pos hMM hWpos
  rw [abs_of_pos hXpos]
  have habs : |(round t : ℚ) - t| ≤ 1 / 2 := by
    have h := abs_sub_round t
    rwa [abs_sub_comm] at h
  calc |(round t : ℚ) - t| * ((ch.max - ch.min) / (2 ^ ch.width - 1))
      ≤ 1 / 2 * ((ch.max - ch.min) / (2 ^ ch.width - 1)) :=
        mul_le_mul_of_nonneg_right habs hXpos.le
    _ ≤ (ch.max - ch.min) / (2 ^ ch.width - 1) := by linarith

/-- C4: encoding saturates — any value above `max` encodes to the code
of `max`, any value below `min` encodes to the code of `min`, and every
code lies in `[0, 2^w - 1]` (encoding never fails or wraps). -/
theorem quant_saturation (ch : QuantChannel) (v : ℚ) (hw : 1 ≤ ch.width)
    (hlt : ch.min < ch.max) :
    (ch.max < v → quantEncode ch v = quantEncode ch ch.max) ∧
    (v < ch.min → quantEncode ch v = quantEncode ch ch.min) ∧
    0 ≤ quantEncode ch v ∧ quantEncode ch v ≤ 2 ^ ch.width - 1 := by
  have hWpos : (0 : ℚ) < 2 ^ ch.width - 1 := twoPowSub1_pos ch.width hw
  have hMM : (0 : ℚ) < ch.max - ch.min := by linarith
  have hKnn : (0 : ℤ) ≤ 2 ^ ch.width - 1 := by
    have h := pow_pos (by norm_num : (0 : ℤ) < 2) ch.width
    omega
  have hencmax : quantEncode ch ch.max = 2 ^ ch.width - 1 := by
    unfold quantEncode
    rw [div_self hMM.ne', one_mul, round_two_pow_sub_one, min_self,
      max_eq_right hKnn]
  have hencmin : quantEncode ch ch.min = 0 := by
    unfold quantEncode
    rw [sub_self, zero_div, zero_mul, round_zero, min_eq_right hKnn,
      max_self]
  refine ⟨?_, ?_, ?_, ?_⟩
  · intro hv
    rw [hencmax]
    unfold quantEncode
    have ht : (2 : ℚ) ^ ch.width - 1 ≤
        (v - ch.min) / (ch.max - ch.min) * (2 ^ ch.width - 1) := by
      have hr : (1 : ℚ) ≤ (v - ch.min) / (ch.max - ch.min) :=
        (one_le_div hMM).mpr (by linarith)
      calc (2 : ℚ) ^ ch.width - 1 = 1 * (2 ^ ch.width - 1) := (one_mul _).symm
        _ ≤ (v - ch.min) / (ch.max - ch.min) * (2 ^ ch.width - 1) :=
          mul_le_mul_of_nonneg_right hr hWpos.le
    have hround : (2 : ℤ) ^ ch.width - 1 ≤
        round ((v - ch.min) / (ch.max - ch.min) * (2 ^ ch.width - 1)) := by
      have h := round_mono_rat ht
      rwa [round_two_pow_sub_one] at h
    rw [min_eq_left hround, max_eq_right hKnn]
  · intro hv
    rw [hencmin]
    unfold quantEncode
    have hr : (v - ch.min) / (ch.max - ch.min) ≤ 0 :=
      div_nonpos_of_nonpos_of_nonneg (by linarith) hMM.le
    have ht : (v - ch.min) / (ch.max - ch.min) * (2 ^ ch.width - 1) ≤ 0 := by
      calc (v - ch.min) / (ch.max - ch.min) * (2 ^ ch.width - 1)
          ≤ 0 * (2 ^ ch.width - 1) := mul_le_mul_of_nonneg_right hr hWpos.le
        _ = 0 := zero_mul _
    have hround : round ((v - ch.min) / (ch.max - ch.min) *
        (2 ^ ch.width - 1)) ≤ 0 := by
      have h := round_mono_rat ht
      rwa [round_zero] at h
    rw [min_eq_right (le_trans hround hKnn), max_eq_left hround]
  · exact le_max_left 0 _
  · exact max_le hKnn (min_le_left _ _)

/-- A concrete 16-bit channel spanning `[-100, 100]`. -/
def exampleChannel : QuantChannel := { min := -100, max := 100, width := 16 }

/-- Witness for C3 on the concrete channel at the in-range value 37. -/
theorem quant_roundtrip_witness :
    (1 ≤ exampleChannel.width ∧ exampleChannel.min < exampleChannel.max ∧
      exampleChannel.min ≤ 37 ∧ (37 : ℚ) ≤ exampleChannel.max) ∧
    |quantDecode exampleChannel (quantEncode exampleChannel 37) - 37| ≤
      exampleChannel.res :=
  ⟨⟨by decide, by decide, by decide, by decide⟩,
    quant_roundtrip exampleChannel 37 (by decide) (by decide) (by decide)
      (by decide)⟩

/-- Witness for C4 on the concrete channel at the out-of-range value
250. -/
theorem quant_saturation_witness :
    exampleChannel.max < 250 ∧
    quantEncode exampleChannel 250 = quantEncode exampleChannel
      exampleChannel.max :=
  ⟨by decide,
    (quant_saturation exampleChannel 250 (by decide) (by decide)).1
      (by decide)⟩

end Mesh
